import Mathlib

/-!
Shallow embedding of `src/services/webCryptoFunction.service.ts`
(`WebCryptoFunctionService`), the crypto-primitives façade that routes each
operation either to the native WebCrypto backend (`window.crypto.subtle`) or
to the software backend (the `forge` module), and of the byte-bridging
helpers it relies on.

Modelling conventions:
* an `ArrayBuffer` / `Uint8Array` is a `Buffer := List (Fin 256)`;
* a JavaScript string used as an 8-bit byte string is a `JSStr := List Nat`
  (one entry per UTF-16 code unit);
* a `Promise<ArrayBuffer>` is an `Except JsError Buffer`: `Except.ok` is a
  resolved promise, `Except.error` a rejected one; `await e; f` is the
  explicit match that propagates `Except.error`;
* the two external backends are abstract structures of functions (`Forge`
  for the `node-forge` module, `SubtleCrypto` for `window.crypto.subtle`),
  with each fluent API usage in the source flattened into the one function
  the façade effectively calls;
* `crypto.getRandomValues` fills the given typed array in place, one byte
  per existing element; it is modelled by an abstract entropy stream mapped
  over the indices of the array, which preserves the array's length exactly
  as the in-place API does.
-/

/-- A single byte, the element type of an `ArrayBuffer` view. -/
abbrev Byte := Fin 256

/-- An `ArrayBuffer` / `Uint8Array`: a list of bytes. -/
abbrev Buffer := List Byte

/-- A JavaScript string viewed as its UTF-16 code units; byte strings are the
special case where every code unit is below 256. -/
abbrev JSStr := List Nat

/-- A rejected-promise error value. -/
abbrev JsError := String

/-- Truncation of a code unit to a byte, as a `Uint8Array` element assignment
does in JavaScript. -/
def byteOfNat (n : Nat) : Byte := ⟨n % 256, Nat.mod_lt n (by decide)⟩

/-- A `string | ArrayBuffer` union argument. -/
abbrev StrOrBuf := String ⊕ Buffer

namespace Utils

/-- Modelled from the spec: `Utils.fromBufferToByteString` lives in
`src/misc/utils.ts`, which is not part of the given sources.  Per the spec's
Byte Bridge contract it maps each byte of a buffer directly to one code unit
of the byte string. -/
def fromBufferToByteString (b : Buffer) : JSStr := b.map Fin.val

/-- Modelled from the spec: `Utils.fromByteStringToArray` lives in
`src/misc/utils.ts`, which is not part of the given sources.  Per the spec it
is the inverse of the buffer-to-byte-string mapping: each code unit becomes
one byte (a `Uint8Array` element assignment truncates modulo 256). -/
def fromByteStringToArray (s : JSStr) : Buffer := s.map byteOfNat

/-- Modelled from the spec: `Utils.fromUtf8ToArray` lives in
`src/misc/utils.ts`, which is not part of the given sources.  Per the spec's
Byte Bridge contract it UTF-8-encodes text into a buffer. -/
def fromUtf8ToArray (s : String) : Buffer :=
  s.toUTF8.toList.map (fun b => byteOfNat b.toNat)

end Utils

/-- The algorithm-descriptor objects the source passes to the WebCrypto API,
one constructor per object shape occurring in the source: `{name}`,
`{name, iv}`, `{name, hash: {name}}` and the full `Pbkdf2Params`. -/
inductive WCAlgorithm where
  | simple (name : String)
  | withIv (name : String) (iv : Buffer)
  | withHash (name : String) (hash : String)
  | pbkdf2Params (name : String) (salt : Buffer) (iterations : Int) (hash : String)
  deriving DecidableEq

/-- An opaque imported `CryptoKey` handle; its observable content is exactly
what `subtle.importKey` received for it. -/
structure CryptoKey where
  keyFormat : String
  keyData : Buffer
  algorithm : WCAlgorithm
  extractable : Bool
  usages : List String
  deriving DecidableEq

/-- The native backend, `window.crypto.subtle`, as an abstract behaviour:
each method may resolve or reject. -/
structure SubtleCrypto where
  importKey : String → Buffer → WCAlgorithm → Bool → List String → Except JsError CryptoKey
  deriveBits : WCAlgorithm → CryptoKey → Nat → Except JsError Buffer
  digest : WCAlgorithm → Buffer → Except JsError Buffer
  sign : WCAlgorithm → CryptoKey → Buffer → Except JsError Buffer
  encrypt : WCAlgorithm → CryptoKey → Buffer → Except JsError Buffer
  decrypt : WCAlgorithm → CryptoKey → Buffer → Except JsError Buffer

/-- The `window.crypto` object: the subtle interface plus the entropy stream
behind `getRandomValues`. -/
structure Crypto where
  subtle : SubtleCrypto
  entropy : Nat → Byte

/-- `crypto.getRandomValues(arr)` fills the given array in place, writing one
random byte per existing element and leaving the length unchanged. -/
def Crypto.getRandomValues (c : Crypto) (arr : Buffer) : Buffer :=
  (List.range arr.length).map c.entropy

/-- The `window` object, as far as the service reads it. -/
structure Window where
  crypto : Crypto

/-- The injected `PlatformUtilsService`; `isEdge()` is the capability
detector input read once by the constructor. -/
structure PlatformUtilsService where
  isEdge : Bool

/-- The `forge` module as used by the source, one function per fluent usage:
`forge.util.encodeUtf8`, `forge.pbkdf2(password, salt, iterations, len, alg)`,
the three digest pipelines `forge.md.shaN.create(); update(bytes, 'raw');
digest().data`, the HMAC pipeline `hmac.create(); start(alg, key);
update(value); digest().getBytes()`, and the AES-CBC decipher pipeline
`createDecipher('AES-CBC', key); start({iv}); update(data); finish();
output.getBytes()` — the decipher returns both the `finish()` success flag
and the accumulated output bytes. -/
structure Forge where
  encodeUtf8 : String → JSStr
  pbkdf2 : JSStr → JSStr → Int → Nat → String → JSStr
  sha1md : JSStr → JSStr
  sha256md : JSStr → JSStr
  sha512md : JSStr → JSStr
  hmacDigest : String → JSStr → JSStr → JSStr
  aesDecrypt : JSStr → JSStr → JSStr → Bool × JSStr

/-- The service state captured by the constructor. -/
structure WebCryptoFunctionService where
  crypto : Crypto
  subtle : SubtleCrypto
  isEdge : Bool

/-- The constructor: `this.crypto = win.crypto; this.subtle =
win.crypto.subtle; this.isEdge = platformUtilsService.isEdge()`. -/
def mkWebCryptoFunctionService (win : Window) (platformUtilsService : PlatformUtilsService) :
    WebCryptoFunctionService :=
  { crypto := win.crypto
    subtle := win.crypto.subtle
    isEdge := platformUtilsService.isEdge }

namespace WebCryptoFunctionService

/-- Private helper `toBuf`: strings are UTF-8 encoded, buffers pass through. -/
def toBuf (value : StrOrBuf) : Buffer :=
  match value with
  | Sum.inl s => Utils.fromUtf8ToArray s
  | Sum.inr b => b

/-- Private helper `toByteString`: strings go through `forge.util.encodeUtf8`,
buffers through `Utils.fromBufferToByteString`. -/
def toByteString (fg : Forge) (value : StrOrBuf) : JSStr :=
  match value with
  | Sum.inl s => fg.encodeUtf8 s
  | Sum.inr b => Utils.fromBufferToByteString b

/-- Private helper `toWebCryptoAlgorithm`: the chained conditional of the
source, which sends any identifier other than `sha1`/`sha256` to `SHA-512`. -/
def toWebCryptoAlgorithm (algorithm : String) : String :=
  if algorithm == "sha1" then "SHA-1"
  else if algorithm == "sha256" then "SHA-256"
  else "SHA-512"

/-- `pbkdf2(password, salt, algorithm, iterations)`; the algorithm parameter
is a runtime string, matching the JavaScript semantics of the source. -/
def pbkdf2 (fg : Forge) (svc : WebCryptoFunctionService)
    (password salt : StrOrBuf) (algorithm : String) (iterations : Int) :
    Except JsError Buffer :=
  if svc.isEdge then
    let forgeLen : Nat := if algorithm == "sha256" then 32 else 64
    let passwordBytes := toByteString fg password
    let saltBytes := toByteString fg salt
    let derivedKeyBytes := fg.pbkdf2 passwordBytes saltBytes iterations forgeLen algorithm
    Except.ok (Utils.fromByteStringToArray derivedKeyBytes)
  else
    let wcLen : Nat := if algorithm == "sha256" then 256 else 512
    let passwordBuf := toBuf password
    let saltBuf := toBuf salt
    let params := WCAlgorithm.pbkdf2Params "PBKDF2" saltBuf iterations (toWebCryptoAlgorithm algorithm)
    match svc.subtle.importKey "raw" passwordBuf (WCAlgorithm.simple "PBKDF2") false ["deriveBits"] with
    | Except.error e => Except.error e
    | Except.ok impKey => svc.subtle.deriveBits params impKey wcLen

/-- `hash(value, algorithm)`: on Edge one of the three forge digest
constructors is selected (any unrecognized identifier falls to the `sha512`
branch); otherwise `subtle.digest` with the canonical name. -/
def hash (fg : Forge) (svc : WebCryptoFunctionService)
    (value : StrOrBuf) (algorithm : String) : Except JsError Buffer :=
  if svc.isEdge then
    let md : JSStr → JSStr :=
      if algorithm == "sha1" then fg.sha1md
      else if algorithm == "sha256" then fg.sha256md
      else fg.sha512md
    let valueBytes := toByteString fg value
    Except.ok (Utils.fromByteStringToArray (md valueBytes))
  else
    svc.subtle.digest (WCAlgorithm.simple (toWebCryptoAlgorithm algorithm)) (toBuf value)

/-- `hmac(value, key, algorithm)`: on Edge the forge HMAC pipeline receives
the algorithm string verbatim; otherwise a fresh key import and
`subtle.sign`. -/
def hmac (fg : Forge) (svc : WebCryptoFunctionService)
    (value key : Buffer) (algorithm : String) : Except JsError Buffer :=
  if svc.isEdge then
    let valueBytes := toByteString fg (Sum.inr value)
    let keyBytes := toByteString fg (Sum.inr key)
    Except.ok (Utils.fromByteStringToArray (fg.hmacDigest algorithm keyBytes valueBytes))
  else
    let signingAlgorithm := WCAlgorithm.withHash "HMAC" (toWebCryptoAlgorithm algorithm)
    match svc.subtle.importKey "raw" key signingAlgorithm false ["sign"] with
    | Except.error e => Except.error e
    | Except.ok impKey => svc.subtle.sign signingAlgorithm impKey value

/-- `aesEncrypt(data, iv, key)`: always the native backend. -/
def aesEncrypt (svc : WebCryptoFunctionService) (data iv key : Buffer) :
    Except JsError Buffer :=
  match svc.subtle.importKey "raw" key (WCAlgorithm.simple "AES-CBC") false ["encrypt"] with
  | Except.error e => Except.error e
  | Except.ok impKey => svc.subtle.encrypt (WCAlgorithm.withIv "AES-CBC" iv) impKey data

/-- `aesDecryptSmall(data, iv, key)`: always the forge decipher pipeline.
The source calls `decipher.finish()` and discards its boolean result
(`r.1`), returning `decipher.output.getBytes()` unconditionally. -/
def aesDecryptSmall (fg : Forge) (svc : WebCryptoFunctionService)
    (data iv key : Buffer) : Except JsError Buffer :=
  let dataBytes := toByteString fg (Sum.inr data)
  let ivBytes := toByteString fg (Sum.inr iv)
  let keyBytes := toByteString fg (Sum.inr key)
  let r := fg.aesDecrypt keyBytes ivBytes dataBytes
  Except.ok (Utils.fromByteStringToArray r.2)

/-- `aesDecryptLarge(data, iv, key)`: always the native backend. -/
def aesDecryptLarge (svc : WebCryptoFunctionService) (data iv key : Buffer) :
    Except JsError Buffer :=
  match svc.subtle.importKey "raw" key (WCAlgorithm.simple "AES-CBC") false ["decrypt"] with
  | Except.error e => Except.error e
  | Except.ok impKey => svc.subtle.decrypt (WCAlgorithm.withIv "AES-CBC" iv) impKey data

/-- `rsaEncrypt(data, publicKey, algorithm)`: spki import restricted to
encrypt usage, then RSA-OAEP encryption with the canonical hash name. -/
def rsaEncrypt (svc : WebCryptoFunctionService) (data publicKey : Buffer)
    (algorithm : String) : Except JsError Buffer :=
  let rsaParams := WCAlgorithm.withHash "RSA-OAEP" (toWebCryptoAlgorithm algorithm)
  match svc.subtle.importKey "spki" publicKey rsaParams false ["encrypt"] with
  | Except.error e => Except.error e
  | Except.ok impKey => svc.subtle.encrypt rsaParams impKey data

/-- `rsaDecrypt(data, privateKey, algorithm)`: pkcs8 import restricted to
decrypt usage, then RSA-OAEP decryption with the canonical hash name. -/
def rsaDecrypt (svc : WebCryptoFunctionService) (data privateKey : Buffer)
    (algorithm : String) : Except JsError Buffer :=
  let rsaParams := WCAlgorithm.withHash "RSA-OAEP" (toWebCryptoAlgorithm algorithm)
  match svc.subtle.importKey "pkcs8" privateKey rsaParams false ["decrypt"] with
  | Except.error e => Except.error e
  | Except.ok impKey => svc.subtle.decrypt rsaParams impKey data

/-- `randomBytes(length)`: allocates a zero-filled array of the requested
length, fills it in place via `getRandomValues` and resolves with it. -/
def randomBytes (svc : WebCryptoFunctionService) (length : Nat) :
    Except JsError Buffer :=
  let arr : Buffer := List.replicate length (byteOfNat 0)
  Except.ok (svc.crypto.getRandomValues arr)

end WebCryptoFunctionService

open WebCryptoFunctionService

/-- The fixed output length in bytes that the spec's table assigns to each
hash-algorithm identifier (20 / 32 / 64). -/
def shaOutLen (a : String) : Nat :=
  if a == "sha1" then 20 else if a == "sha256" then 32 else 64

/-- The fixed output length in bytes associated with each canonical
WebCrypto algorithm name. -/
def webNameLen (n : String) : Nat :=
  if n == "SHA-1" then 20 else if n == "SHA-256" then 32 else 64

/-- Membership in the enumerated hash-algorithm identifier set. -/
def isShaId (a : String) : Prop :=
  a = "sha1" ∨ a = "sha256" ∨ a = "sha512"

instance (a : String) : Decidable (isShaId a) := by
  unfold isShaId; infer_instance

/-- Buffer-to-byte-string conversion round-trips exactly. -/
theorem fromByteString_fromBuffer (b : Buffer) :
    Utils.fromByteStringToArray (Utils.fromBufferToByteString b) = b := by
  unfold Utils.fromByteStringToArray Utils.fromBufferToByteString
  rw [List.map_map]
  have h : ∀ x : Byte, byteOfNat x.val = x := fun x =>
    Fin.ext (Nat.mod_eq_of_lt x.isLt)
  calc b.map (byteOfNat ∘ Fin.val) = b.map id := List.map_congr_left (fun x _ => h x)
    _ = b := List.map_id b

/-- A native backend whose every method rejects, for probing that an
operation never consults it. -/
def errSubtle : SubtleCrypto :=
  { importKey := fun _ _ _ _ _ => Except.error "no"
    deriveBits := fun _ _ _ => Except.error "no"
    digest := fun _ _ => Except.error "no"
    sign := fun _ _ _ => Except.error "no"
    encrypt := fun _ _ _ => Except.error "no"
    decrypt := fun _ _ _ => Except.error "no" }

/-- A native backend that imports keys transparently and resolves every
primitive with a zero-filled buffer of the contractually fixed length. -/
def lenSubtle : SubtleCrypto :=
  { importKey := fun fmt kd a e u => Except.ok ⟨fmt, kd, a, e, u⟩
    deriveBits := fun _ _ bits => Except.ok (List.replicate (bits / 8) (byteOfNat 0))
    digest := fun a _ =>
      match a with
      | WCAlgorithm.simple n => Except.ok (List.replicate (webNameLen n) (byteOfNat 0))
      | _ => Except.error "bad"
    sign := fun a _ _ =>
      match a with
      | WCAlgorithm.withHash _ h => Except.ok (List.replicate (webNameLen h) (byteOfNat 0))
      | _ => Except.error "bad"
    encrypt := fun _ _ d => Except.ok d
    decrypt := fun _ _ d => Except.ok d }

/-- A software backend producing zero-filled outputs of the contractually
fixed lengths; its AES decipher echoes the ciphertext with a successful
finish flag. -/
def lenForge : Forge :=
  { encodeUtf8 := fun s => Utils.fromBufferToByteString (Utils.fromUtf8ToArray s)
    pbkdf2 := fun _ _ _ len _ => List.replicate len 0
    sha1md := fun _ => List.replicate 20 0
    sha256md := fun _ => List.replicate 32 0
    sha512md := fun _ => List.replicate 64 0
    hmacDigest := fun a _ _ => List.replicate (shaOutLen a) 0
    aesDecrypt := fun _ _ c => (true, c) }

/-- A software backend whose AES decipher reports a padding-validation
failure from `finish()` while leaving bytes in the output buffer. -/
def badForge : Forge :=
  { encodeUtf8 := fun _ => []
    pbkdf2 := fun _ _ _ _ _ => []
    sha1md := fun _ => []
    sha256md := fun _ => []
    sha512md := fun _ => []
    hmacDigest := fun _ _ _ => []
    aesDecrypt := fun _ _ _ => (false, [7, 8]) }

/-- Like `badForge` but with a successful finish flag over the same output
bytes, for showing the flag never influences the result. -/
def flagForge : Forge :=
  { badForge with aesDecrypt := fun _ _ _ => (true, [7, 8]) }

/-- A software backend whose HMAC output reveals the algorithm identifier it
was started with (as the identifier's length). -/
def probeForge : Forge :=
  { badForge with hmacDigest := fun a _ _ => [a.length] }

/-- The crypto object built over the rejecting native backend. -/
def crypto0 : Crypto := { subtle := errSubtle, entropy := fun _ => byteOfNat 0 }

/-- The crypto object built over the length-respecting native backend. -/
def cryptoLen : Crypto := { subtle := lenSubtle, entropy := fun _ => byteOfNat 0 }

/-- A window exposing `crypto0`. -/
def win0 : Window := { crypto := crypto0 }

/-- A platform-utils stub reporting the Edge environment. -/
def pusEdge : PlatformUtilsService := { isEdge := true }

/-- Service on the Edge path with the rejecting native backend. -/
def svcEdge : WebCryptoFunctionService :=
  { crypto := crypto0, subtle := errSubtle, isEdge := true }

/-- Service on the native path with the rejecting native backend. -/
def svcStd : WebCryptoFunctionService :=
  { crypto := crypto0, subtle := errSubtle, isEdge := false }

/-- Service on the Edge path with the length-respecting native backend. -/
def svcLenEdge : WebCryptoFunctionService :=
  { crypto := cryptoLen, subtle := lenSubtle, isEdge := true }

/-- Service on the native path with the length-respecting native backend. -/
def svcLenStd : WebCryptoFunctionService :=
  { crypto := cryptoLen, subtle := lenSubtle, isEdge := false }

/-- C5: for every binary buffer `b` the byte-string bridge round-trips,
`toByteString` maps each byte of a buffer to exactly one code unit, and the
buffer branch never consults the software library's UTF-8 encoder (the
conversion is the same for every `Forge`, so no UTF-8 re-encoding of
already-binary data can occur). -/
theorem c5_byte_bridge_roundtrip (fg fg₁ fg₂ : Forge) (b : Buffer) :
    Utils.fromByteStringToArray (toByteString fg (Sum.inr b)) = b ∧
    toByteString fg (Sum.inr b) = b.map Fin.val ∧
    toByteString fg₁ (Sum.inr b) = toByteString fg₂ (Sum.inr b) := by
  refine ⟨?_, rfl, rfl⟩
  exact fromByteString_fromBuffer b

/-- C8: `randomBytes(n)` always resolves (never rejects) with the in-place
filled array, whose length is exactly `n`; in particular `randomBytes(0)`
resolves with the empty buffer. -/
theorem c8_randomBytes_length (svc : WebCryptoFunctionService) (n : Nat) :
    randomBytes svc n = Except.ok ((List.range n).map svc.crypto.entropy) ∧
    ((List.range n).map svc.crypto.entropy).length = n ∧
    randomBytes svc 0 = Except.ok [] := by
  refine ⟨?_, ?_, ?_⟩ <;> simp [randomBytes, Crypto.getRandomValues]

/-- C2: the constructor copies the capability detector's single flag, and
`pbkdf2`, `hash` and `hmac` are all routed by that one flag: when it reports
the native backend untrusted (`isEdge = true`) their results are independent
of the entire native side (any two services with the flag set agree), and
when it reports it trusted their results are independent of the software
backend (any two `Forge` instances agree on services sharing the native
backend with the flag unset). -/
theorem c2_capability_routing
    (win : Window) (pus : PlatformUtilsService)
    (fg fg₁ fg₂ : Forge) (s₁ s₂ : WebCryptoFunctionService)
    (password salt value : StrOrBuf) (v k : Buffer) (alg : String) (it : Int) :
    (mkWebCryptoFunctionService win pus).isEdge = pus.isEdge ∧
    (s₁.isEdge = true → s₂.isEdge = true →
      pbkdf2 fg s₁ password salt alg it = pbkdf2 fg s₂ password salt alg it ∧
      hash fg s₁ value alg = hash fg s₂ value alg ∧
      hmac fg s₁ v k alg = hmac fg s₂ v k alg) ∧
    (s₁.isEdge = false → s₂.isEdge = false → s₁.subtle = s₂.subtle →
      pbkdf2 fg₁ s₁ password salt alg it = pbkdf2 fg₂ s₂ password salt alg it ∧
      hash fg₁ s₁ value alg = hash fg₂ s₂ value alg ∧
      hmac fg₁ s₁ v k alg = hmac fg₂ s₂ v k alg) := by
  refine ⟨rfl, ?_, ?_⟩
  · intro h₁ h₂
    refine ⟨?_, ?_, ?_⟩ <;> simp [pbkdf2, WebCryptoFunctionService.hash, hmac, h₁, h₂]
  · intro h₁ h₂ hs
    refine ⟨?_, ?_, ?_⟩ <;> simp [pbkdf2, WebCryptoFunctionService.hash, hmac, h₁, h₂, hs]

/-- Witness for C2 at concrete inputs: with the flag set, changing the whole
native side (rejecting backend vs. length-respecting backend) does not change
`hash`; with the flag unset, changing the software backend does not change
`hmac`. -/
theorem c2_capability_routing_witness :
    hash lenForge svcEdge (Sum.inr []) "sha256" = hash lenForge svcLenEdge (Sum.inr []) "sha256" ∧
    hmac lenForge svcLenStd [] [] "sha1" = hmac badForge svcLenStd [] [] "sha1" :=
  ⟨((c2_capability_routing win0 pusEdge lenForge lenForge badForge svcEdge svcLenEdge
      (Sum.inr []) (Sum.inr []) (Sum.inr []) [] [] "sha256" 1).2.1 rfl rfl).2.1,
   ((c2_capability_routing win0 pusEdge lenForge lenForge badForge svcLenStd svcLenStd
      (Sum.inr []) (Sum.inr []) (Sum.inr []) [] [] "sha1" 1).2.2 rfl rfl rfl).2.2⟩

/-- C3: `aesDecryptSmall` is a pure function of the software backend — any
two services (any flag value, any native backend) give the same result, which
is exactly the forge decipher pipeline's output; `aesEncrypt`,
`aesDecryptLarge`, `rsaEncrypt` and `rsaDecrypt` never consult the software
backend (they take none) and depend only on the native `subtle` interface —
any two services sharing `subtle` agree, whatever their capability flags. -/
theorem c3_fixed_backend_policies
    (fg : Forge) (s₁ s₂ : WebCryptoFunctionService)
    (d iv k pk sk : Buffer) (alg : String) :
    aesDecryptSmall fg s₁ d iv k = aesDecryptSmall fg s₂ d iv k ∧
    aesDecryptSmall fg s₁ d iv k =
      Except.ok (Utils.fromByteStringToArray
        (fg.aesDecrypt (Utils.fromBufferToByteString k) (Utils.fromBufferToByteString iv)
          (Utils.fromBufferToByteString d)).2) ∧
    (s₁.subtle = s₂.subtle →
      aesEncrypt s₁ d iv k = aesEncrypt s₂ d iv k ∧
      aesDecryptLarge s₁ d iv k = aesDecryptLarge s₂ d iv k ∧
      rsaEncrypt s₁ d pk alg = rsaEncrypt s₂ d pk alg ∧
      rsaDecrypt s₁ d sk alg = rsaDecrypt s₂ d sk alg) := by
  refine ⟨rfl, rfl, ?_⟩
  intro hs
  refine ⟨?_, ?_, ?_, ?_⟩ <;>
    simp [aesEncrypt, aesDecryptLarge, rsaEncrypt, rsaDecrypt, hs]

/-- Witness for C3 at concrete inputs: `aesDecryptSmall` agrees across a
flag-off service with a rejecting native backend and a flag-on service with a
different native backend, and `aesEncrypt` agrees across the two flag values
over the same native backend. -/
theorem c3_fixed_backend_policies_witness :
    aesDecryptSmall lenForge svcStd [] [] [] = aesDecryptSmall lenForge svcLenEdge [] [] [] ∧
    aesEncrypt svcLenStd [] [] [] = aesEncrypt svcLenEdge [] [] [] :=
  ⟨(c3_fixed_backend_policies lenForge svcStd svcLenEdge [] [] [] [] [] "sha1").1,
   ((c3_fixed_backend_policies lenForge svcLenStd svcLenEdge [] [] [] [] [] "sha1").2.2 rfl).1⟩

/-- C1 counterexample: a software decipher whose `finish()` reports a
padding-validation failure (`false`) still makes `aesDecryptSmall` resolve
successfully with the decipher's output bytes — the rejection the claim
requires never happens. -/
theorem c1_padding_error_counterexample :
    (badForge.aesDecrypt (Utils.fromBufferToByteString []) (Utils.fromBufferToByteString [])
        (Utils.fromBufferToByteString [])).1 = false ∧
    aesDecryptSmall badForge svcStd [] [] [] =
      Except.ok (Utils.fromByteStringToArray [7, 8]) :=
  ⟨rfl, rfl⟩

/-- C1 amended: `aesDecryptSmall` never rejects — it always resolves with the
output component of the forge decipher pipeline, and the `finish()` success
flag is discarded: any software backend producing the same output bytes, with
any flag value, yields the same resolved result. -/
theorem c1_amended_never_rejects (fg fg' : Forge) (svc : WebCryptoFunctionService)
    (d iv k : Buffer) :
    aesDecryptSmall fg svc d iv k =
      Except.ok (Utils.fromByteStringToArray
        (fg.aesDecrypt (Utils.fromBufferToByteString k) (Utils.fromBufferToByteString iv)
          (Utils.fromBufferToByteString d)).2) ∧
    ((fg'.aesDecrypt (Utils.fromBufferToByteString k) (Utils.fromBufferToByteString iv)
        (Utils.fromBufferToByteString d)).2 =
      (fg.aesDecrypt (Utils.fromBufferToByteString k) (Utils.fromBufferToByteString iv)
        (Utils.fromBufferToByteString d)).2 →
      aesDecryptSmall fg' svc d iv k = aesDecryptSmall fg svc d iv k) := by
  refine ⟨rfl, ?_⟩
  intro h
  simp [aesDecryptSmall, toByteString, h]

/-- Witness for the amended C1 at concrete inputs: the decipher that fails
padding validation and the one that succeeds over the same output bytes give
the same resolved result. -/
theorem c1_amended_never_rejects_witness :
    aesDecryptSmall flagForge svcStd [] [] [] = aesDecryptSmall badForge svcStd [] [] [] ∧
    aesDecryptSmall badForge svcStd [] [] [] =
      Except.ok (Utils.fromByteStringToArray
        (badForge.aesDecrypt (Utils.fromBufferToByteString []) (Utils.fromBufferToByteString [])
          (Utils.fromBufferToByteString [])).2) :=
  ⟨(c1_amended_never_rejects badForge flagForge svcStd [] [] []).2 rfl,
   (c1_amended_never_rejects badForge flagForge svcStd [] [] []).1⟩

/-- The canonical-name length table agrees with the identifier length table
through the source's `toWebCryptoAlgorithm` mapping, for every identifier. -/
theorem webNameLen_toWebCryptoAlgorithm (a : String) :
    webNameLen (toWebCryptoAlgorithm a) = shaOutLen a := by
  unfold webNameLen toWebCryptoAlgorithm shaOutLen
  cases h1 : (a == "sha1") <;> cases h2 : (a == "sha256") <;> simp [h1, h2]

/-- C9 counterexample: `"md5"` is outside the enumerated set, yet on the
software path `hmac` is not treated as `sha512`: the façade hands the raw
identifier to the software backend, so a backend that reveals the identifier
it received distinguishes the two calls. -/
theorem c9_fallthrough_counterexample :
    ¬ isShaId "md5" ∧
    hmac probeForge svcEdge [] [] "md5" ≠ hmac probeForge svcEdge [] [] "sha512" := by
  refine ⟨by decide, ?_⟩
  have ha : hmac probeForge svcEdge [] [] "md5" = Except.ok [byteOfNat 3] := rfl
  have hb : hmac probeForge svcEdge [] [] "sha512" = Except.ok [byteOfNat 6] := rfl
  intro h
  rw [ha, hb] at h
  have h1 : ([byteOfNat 3] : Buffer) = [byteOfNat 6] := by injection h
  have h2 : byteOfNat 3 = byteOfNat 6 := by injection h1
  exact absurd (congrArg Fin.val h2) (by decide)

/-- C9 amended: an identifier outside the enumerated set is never failed
fast; `toWebCryptoAlgorithm` maps it to `SHA-512`, so on the native path
`hash`, `hmac` and `pbkdf2` behave exactly as with `sha512`, and on the
software path `hash` falls through to the sha512 digest constructor and
`pbkdf2` uses the 64-byte output length — but the software paths of `hmac`
and `pbkdf2` forward the raw unrecognized identifier to the software library
instead of substituting `sha512`. -/
theorem c9_amended_fallthrough (alg : String) (h : ¬ isShaId alg)
    (fg : Forge) (svcE svcN : WebCryptoFunctionService)
    (hE : svcE.isEdge = true) (hN : svcN.isEdge = false)
    (value pw salt : StrOrBuf) (v k : Buffer) (it : Int) :
    toWebCryptoAlgorithm alg = "SHA-512" ∧
    hash fg svcN value alg = hash fg svcN value "sha512" ∧
    hmac fg svcN v k alg = hmac fg svcN v k "sha512" ∧
    pbkdf2 fg svcN pw salt alg it = pbkdf2 fg svcN pw salt "sha512" it ∧
    hash fg svcE value alg = hash fg svcE value "sha512" ∧
    hmac fg svcE v k alg =
      Except.ok (Utils.fromByteStringToArray
        (fg.hmacDigest alg (Utils.fromBufferToByteString k) (Utils.fromBufferToByteString v))) ∧
    pbkdf2 fg svcE pw salt alg it =
      Except.ok (Utils.fromByteStringToArray
        (fg.pbkdf2 (toByteString fg pw) (toByteString fg salt) it 64 alg)) := by
  simp only [isShaId, not_or] at h
  obtain ⟨h1, h2, h3⟩ := h
  have e1 : (alg == "sha1") = false := beq_false_of_ne h1
  have e2 : (alg == "sha256") = false := beq_false_of_ne h2
  refine ⟨?_, ?_, ?_, ?_, ?_, ?_, ?_⟩ <;>
    simp [toWebCryptoAlgorithm, WebCryptoFunctionService.hash, hmac, pbkdf2,
      toByteString, hE, hN, e1, e2]

/-- Witness for the amended C9 at the concrete identifier `"md5"`. -/
theorem c9_amended_fallthrough_witness :
    toWebCryptoAlgorithm "md5" = "SHA-512" ∧
    hash probeForge svcLenStd (Sum.inr []) "md5" = hash probeForge svcLenStd (Sum.inr []) "sha512" := by
  have h := c9_amended_fallthrough "md5" (by decide) probeForge svcEdge svcLenStd rfl rfl
    (Sum.inr []) (Sum.inr []) (Sum.inr []) [] [] 1
  exact ⟨h.1, h.2.1⟩

/-- C10: `rsaEncrypt` imports with format `spki`, extractable `false` and
usages `['encrypt']`, `rsaDecrypt` with `pkcs8`, `false` and `['decrypt']`:
an import rejection at exactly those arguments rejects the whole call with
the same error, and two services whose native backends agree at exactly
those import arguments (and the corresponding cipher operation) give identical
results — the façade consults the backend at no other key format, usage list
or extractability setting, and imports afresh within the single call. -/
theorem c10_rsa_key_import (svc s₁ s₂ : WebCryptoFunctionService)
    (data pk sk : Buffer) (alg : String) (e : JsError) :
    (svc.subtle.importKey "spki" pk
        (WCAlgorithm.withHash "RSA-OAEP" (toWebCryptoAlgorithm alg)) false ["encrypt"] =
          Except.error e →
      rsaEncrypt svc data pk alg = Except.error e) ∧
    (svc.subtle.importKey "pkcs8" sk
        (WCAlgorithm.withHash "RSA-OAEP" (toWebCryptoAlgorithm alg)) false ["decrypt"] =
          Except.error e →
      rsaDecrypt svc data sk alg = Except.error e) ∧
    (s₁.subtle.importKey "spki" pk
        (WCAlgorithm.withHash "RSA-OAEP" (toWebCryptoAlgorithm alg)) false ["encrypt"] =
      s₂.subtle.importKey "spki" pk
        (WCAlgorithm.withHash "RSA-OAEP" (toWebCryptoAlgorithm alg)) false ["encrypt"] →
      (∀ hk, s₁.subtle.encrypt (WCAlgorithm.withHash "RSA-OAEP" (toWebCryptoAlgorithm alg)) hk data =
        s₂.subtle.encrypt (WCAlgorithm.withHash "RSA-OAEP" (toWebCryptoAlgorithm alg)) hk data) →
      rsaEncrypt s₁ data pk alg = rsaEncrypt s₂ data pk alg) ∧
    (s₁.subtle.importKey "pkcs8" sk
        (WCAlgorithm.withHash "RSA-OAEP" (toWebCryptoAlgorithm alg)) false ["decrypt"] =
      s₂.subtle.importKey "pkcs8" sk
        (WCAlgorithm.withHash "RSA-OAEP" (toWebCryptoAlgorithm alg)) false ["decrypt"] →
      (∀ hk, s₁.subtle.decrypt (WCAlgorithm.withHash "RSA-OAEP" (toWebCryptoAlgorithm alg)) hk data =
        s₂.subtle.decrypt (WCAlgorithm.withHash "RSA-OAEP" (toWebCryptoAlgorithm alg)) hk data) →
      rsaDecrypt s₁ data sk alg = rsaDecrypt s₂ data sk alg) := by
  refine ⟨?_, ?_, ?_, ?_⟩
  · intro h; simp [rsaEncrypt, h]
  · intro h; simp [rsaDecrypt, h]
  · intro him henc
    simp only [rsaEncrypt, him]
    cases h2 : s₂.subtle.importKey "spki" pk
        (WCAlgorithm.withHash "RSA-OAEP" (toWebCryptoAlgorithm alg)) false ["encrypt"] <;>
      simp [h2, henc]
  · intro him hdec
    simp only [rsaDecrypt, him]
    cases h2 : s₂.subtle.importKey "pkcs8" sk
        (WCAlgorithm.withHash "RSA-OAEP" (toWebCryptoAlgorithm alg)) false ["decrypt"] <;>
      simp [h2, hdec]

/-- Witness for C10 at concrete inputs: a rejecting import propagates its
error through both RSA operations, and over a shared native backend the
capability flag makes no difference to either. -/
theorem c10_rsa_key_import_witness :
    rsaEncrypt svcStd [] [] "sha1" = Except.error "no" ∧
    rsaDecrypt svcStd [] [] "sha1" = Except.error "no" ∧
    rsaEncrypt svcLenStd [] [] "sha1" = rsaEncrypt svcLenEdge [] [] "sha1" ∧
    rsaDecrypt svcLenStd [] [] "sha1" = rsaDecrypt svcLenEdge [] [] "sha1" := by
  have h := c10_rsa_key_import svcStd svcLenStd svcLenEdge [] [] [] "sha1" "no"
  exact ⟨h.1 rfl, h.2.1 rfl, h.2.2.1 rfl (fun _ => rfl), h.2.2.2 rfl (fun _ => rfl)⟩

/-- The documented fixed-output-length contracts of the two external
backends: each software digest/HMAC/PBKDF2 routine produces its algorithm's
fixed number of bytes, and each native primitive, when it resolves, produces
the length its canonical algorithm name (or requested bit count) fixes. -/
structure LengthContracts (fg : Forge) (s : SubtleCrypto) : Prop where
  sha1Soft : ∀ x, (fg.sha1md x).length = 20
  sha256Soft : ∀ x, (fg.sha256md x).length = 32
  sha512Soft : ∀ x, (fg.sha512md x).length = 64
  hmacSoft : ∀ a ks vs, isShaId a → (fg.hmacDigest a ks vs).length = shaOutLen a
  kdfSoft : ∀ ps ss it len a, (fg.pbkdf2 ps ss it len a).length = len
  digestNat : ∀ n d b, s.digest (WCAlgorithm.simple n) d = Except.ok b → b.length = webNameLen n
  signNat : ∀ n hk v b, s.sign (WCAlgorithm.withHash "HMAC" n) hk v = Except.ok b →
    b.length = webNameLen n
  deriveNat : ∀ prm hk bits b, s.deriveBits prm hk bits = Except.ok b → b.length = bits / 8

/-- C4: under the backends' fixed-output-length contracts, every buffer the
façade resolves with has the algorithm's fixed length on both paths: 20/32/64
bytes for `hash` and `hmac` on `sha1`/`sha256`/`sha512`, and 32/64 bytes for
`pbkdf2` with positive iterations on `sha256`/`sha512` (the façade passes 32
or 64 bytes to the software KDF and 256 or 512 bits to the native one). -/
theorem c4_output_lengths (fg : Forge) (svc : WebCryptoFunctionService)
    (hc : LengthContracts fg svc.subtle)
    (value pw salt : StrOrBuf) (v k : Buffer) (alg : String) (it : Int) (hit : 0 < it) :
    (isShaId alg →
      ∀ b, hash fg svc value alg = Except.ok b → b.length = shaOutLen alg) ∧
    (isShaId alg →
      ∀ b, hmac fg svc v k alg = Except.ok b → b.length = shaOutLen alg) ∧
    ((alg = "sha256" ∨ alg = "sha512") →
      ∀ b, pbkdf2 fg svc pw salt alg it = Except.ok b → b.length = shaOutLen alg) := by
  refine ⟨?_, ?_, ?_⟩
  · intro ha b hb
    cases hEdge : svc.isEdge
    · simp only [WebCryptoFunctionService.hash, hEdge, Bool.false_eq_true, if_false] at hb
      have := hc.digestNat _ _ _ hb
      rwa [webNameLen_toWebCryptoAlgorithm] at this
    · rcases ha with h|h|h <;> subst h <;>
        simp only [WebCryptoFunctionService.hash, hEdge, if_true] at hb <;>
        simp at hb <;> subst hb <;>
        simp [Utils.fromByteStringToArray, hc.sha1Soft, hc.sha256Soft, hc.sha512Soft, shaOutLen]
  · intro ha b hb
    cases hEdge : svc.isEdge
    · simp only [hmac, hEdge, Bool.false_eq_true, if_false] at hb
      cases him : svc.subtle.importKey "raw" k
          (WCAlgorithm.withHash "HMAC" (toWebCryptoAlgorithm alg)) false ["sign"] <;>
        rw [him] at hb
      · exact absurd hb (by simp)
      · have := hc.signNat _ _ _ _ hb
        rwa [webNameLen_toWebCryptoAlgorithm] at this
    · simp only [hmac, hEdge, if_true] at hb
      simp at hb
      subst hb
      simp [Utils.fromByteStringToArray, hc.hmacSoft _ _ _ ha]
  · intro ha b hb
    cases hEdge : svc.isEdge
    · simp only [pbkdf2, hEdge, Bool.false_eq_true, if_false] at hb
      cases him : svc.subtle.importKey "raw" (toBuf pw)
          (WCAlgorithm.simple "PBKDF2") false ["deriveBits"] <;>
        rw [him] at hb
      · exact absurd hb (by simp)
      · have := hc.deriveNat _ _ _ _ hb
        rcases ha with h|h <;> subst h <;> simpa [shaOutLen] using this
    · simp only [pbkdf2, hEdge, if_true] at hb
      simp at hb
      subst hb
      rcases ha with h|h <;> subst h <;>
        simp [Utils.fromByteStringToArray, hc.kdfSoft, shaOutLen]

/-- The zero-output probe backends satisfy the length contracts. -/
theorem lenContracts : LengthContracts lenForge lenSubtle := by
  constructor
  · intro x; simp [lenForge]
  · intro x; simp [lenForge]
  · intro x; simp [lenForge]
  · intro a ks vs _; simp [lenForge]
  · intro ps ss it len a; simp [lenForge]
  · intro n d b h
    simp only [lenSubtle] at h
    simp at h
    subst h; simp
  · intro n hk v b h
    simp only [lenSubtle] at h
    simp at h
    subst h; simp
  · intro prm hk bits b h
    simp only [lenSubtle] at h
    simp at h
    subst h; simp

/-- Witness for C4 at concrete inputs: a native `sha1` hash resolves with 20
bytes and a native `sha256` PBKDF2 derivation with 32 bytes. -/
theorem c4_output_lengths_witness :
    (List.replicate 20 (byteOfNat 0)).length = 20 ∧
    (List.replicate 32 (byteOfNat 0)).length = 32 := by
  have h1 := c4_output_lengths lenForge svcLenStd lenContracts
    (Sum.inr []) (Sum.inr []) (Sum.inr []) [] [] "sha1" 1 (by decide)
  have h2 := c4_output_lengths lenForge svcLenStd lenContracts
    (Sum.inr []) (Sum.inr []) (Sum.inr []) [] [] "sha256" 1 (by decide)
  exact ⟨h1.1 (Or.inl rfl) (List.replicate 20 (byteOfNat 0)) rfl,
    h2.2.2 (Or.inl rfl) (List.replicate 32 (byteOfNat 0)) rfl⟩

/-- When the software library's UTF-8 encoder agrees with the Byte Bridge,
`toByteString` is the byte-string image of `toBuf`. -/
theorem toByteString_bridges (fg : Forge)
    (h : ∀ s, fg.encodeUtf8 s = Utils.fromBufferToByteString (Utils.fromUtf8ToArray s))
    (w : StrOrBuf) :
    toByteString fg w = Utils.fromBufferToByteString (toBuf w) := by
  cases w <;> simp [toByteString, toBuf, h]

/-- Agreement of the two external backends on a common family of primitives:
the software routines are the byte-string images of the primitives, and the
native methods import keys transparently and resolve with the primitives
applied to the imported key material.  This is the spec's invariant that both
backends resolve an identifier to the semantically identical primitive. -/
structure BackendAgreement (fg : Forge) (s : SubtleCrypto)
    (hashPrim : String → Buffer → Buffer)
    (hmacPrim : String → Buffer → Buffer → Buffer)
    (kdfPrim : String → Buffer → Buffer → Int → Nat → Buffer) : Prop where
  utf8Agree : ∀ str, fg.encodeUtf8 str = Utils.fromBufferToByteString (Utils.fromUtf8ToArray str)
  sha1Agree : ∀ bs, fg.sha1md bs =
    Utils.fromBufferToByteString (hashPrim "sha1" (Utils.fromByteStringToArray bs))
  sha256Agree : ∀ bs, fg.sha256md bs =
    Utils.fromBufferToByteString (hashPrim "sha256" (Utils.fromByteStringToArray bs))
  sha512Agree : ∀ bs, fg.sha512md bs =
    Utils.fromBufferToByteString (hashPrim "sha512" (Utils.fromByteStringToArray bs))
  hmacAgree : ∀ a ks vs, fg.hmacDigest a ks vs =
    Utils.fromBufferToByteString
      (hmacPrim a (Utils.fromByteStringToArray ks) (Utils.fromByteStringToArray vs))
  kdfAgree : ∀ ps ss it len a, fg.pbkdf2 ps ss it len a =
    Utils.fromBufferToByteString
      (kdfPrim a (Utils.fromByteStringToArray ps) (Utils.fromByteStringToArray ss) it len)
  impNat : ∀ fmt kd a e u, s.importKey fmt kd a e u = Except.ok ⟨fmt, kd, a, e, u⟩
  digestNat : ∀ a d, isShaId a →
    s.digest (WCAlgorithm.simple (toWebCryptoAlgorithm a)) d = Except.ok (hashPrim a d)
  signNat : ∀ a hk v, isShaId a →
    s.sign (WCAlgorithm.withHash "HMAC" (toWebCryptoAlgorithm a)) hk v =
      Except.ok (hmacPrim a hk.keyData v)
  deriveNat : ∀ a salt it hk bits, isShaId a →
    s.deriveBits (WCAlgorithm.pbkdf2Params "PBKDF2" salt it (toWebCryptoAlgorithm a)) hk bits =
      Except.ok (kdfPrim a hk.keyData salt it (bits / 8))

/-- C7: when the two backends agree on a common primitive family (the spec's
algorithm-identifier invariant), the software path (capability flag set) and
the native path (flag unset) of `hash`, `hmac` and `pbkdf2` produce
bit-identical result buffers for every input and every identifier in the
enumerated set, the byte-string bridging notwithstanding. -/
theorem c7_backend_path_equivalence (fg : Forge) (sE sN : WebCryptoFunctionService)
    (hashPrim : String → Buffer → Buffer)
    (hmacPrim : String → Buffer → Buffer → Buffer)
    (kdfPrim : String → Buffer → Buffer → Int → Nat → Buffer)
    (hag : BackendAgreement fg sN.subtle hashPrim hmacPrim kdfPrim)
    (hE : sE.isEdge = true) (hN : sN.isEdge = false)
    (value pw salt : StrOrBuf) (v k : Buffer) (alg : String) (halg : isShaId alg) (it : Int) :
    hash fg sE value alg = hash fg sN value alg ∧
    hmac fg sE v k alg = hmac fg sN v k alg ∧
    ((alg = "sha256" ∨ alg = "sha512") →
      pbkdf2 fg sE pw salt alg it = pbkdf2 fg sN pw salt alg it) := by
  have hround : ∀ w : StrOrBuf,
      Utils.fromByteStringToArray (toByteString fg w) = toBuf w := by
    intro w
    rw [toByteString_bridges fg hag.utf8Agree]
    exact fromByteString_fromBuffer _
  refine ⟨?_, ?_, ?_⟩
  · rcases halg with h|h|h <;> subst h
    · simp only [WebCryptoFunctionService.hash, hE, hN, if_true, Bool.false_eq_true, if_false]
      rw [hag.digestNat "sha1" (toBuf value) (Or.inl rfl)]
      simp [hag.sha1Agree, hround, fromByteString_fromBuffer]
    · simp only [WebCryptoFunctionService.hash, hE, hN, if_true, Bool.false_eq_true, if_false]
      rw [hag.digestNat "sha256" (toBuf value) (Or.inr (Or.inl rfl))]
      simp [hag.sha256Agree, hround, fromByteString_fromBuffer]
    · simp only [WebCryptoFunctionService.hash, hE, hN, if_true, Bool.false_eq_true, if_false]
      rw [hag.digestNat "sha512" (toBuf value) (Or.inr (Or.inr rfl))]
      simp [hag.sha512Agree, hround, fromByteString_fromBuffer]
  · simp [hmac, hE, hN, hag.impNat, hag.signNat, halg, hag.hmacAgree, toByteString,
      fromByteString_fromBuffer]
  · intro hpb
    rcases hpb with h|h <;> subst h <;>
      simp [pbkdf2, hE, hN, hag.impNat, hag.deriveNat, isShaId, hag.kdfAgree, hround,
        fromByteString_fromBuffer]

/-- The agreed-on primitive family behind the probe backends: zero-filled
buffers of the contractual lengths. -/
def hashPrim0 : String → Buffer → Buffer :=
  fun a _ => List.replicate (shaOutLen a) (byteOfNat 0)

/-- Probe HMAC primitive: a zero-filled buffer of the identifier's length. -/
def hmacPrim0 : String → Buffer → Buffer → Buffer :=
  fun a _ _ => List.replicate (shaOutLen a) (byteOfNat 0)

/-- Probe PBKDF2 primitive: a zero-filled buffer of the requested length. -/
def kdfPrim0 : String → Buffer → Buffer → Int → Nat → Buffer :=
  fun _ _ _ _ len => List.replicate len (byteOfNat 0)

/-- The probe backends agree on the zero primitive family. -/
theorem backendAgreement0 : BackendAgreement lenForge lenSubtle hashPrim0 hmacPrim0 kdfPrim0 := by
  constructor
  · intro str; rfl
  · intro bs
    simp [lenForge, hashPrim0, Utils.fromBufferToByteString, shaOutLen, List.map_replicate, byteOfNat]
  · intro bs
    simp [lenForge, hashPrim0, Utils.fromBufferToByteString, shaOutLen, List.map_replicate, byteOfNat]
  · intro bs
    simp [lenForge, hashPrim0, Utils.fromBufferToByteString, shaOutLen, List.map_replicate, byteOfNat]
  · intro a ks vs
    simp [lenForge, hmacPrim0, Utils.fromBufferToByteString, List.map_replicate, byteOfNat]
  · intro ps ss it len a
    simp [lenForge, kdfPrim0, Utils.fromBufferToByteString, List.map_replicate, byteOfNat]
  · intro fmt kd a e u; rfl
  · intro a d ha
    rcases ha with h|h|h <;> subst h <;> rfl
  · intro a hk v ha
    rcases ha with h|h|h <;> subst h <;> rfl
  · intro a salt it hk bits ha; rfl

/-- Witness for C7 at concrete inputs: over the agreeing probe backends the
Edge path and the native path of `hash` and `hmac` coincide at `sha256`. -/
theorem c7_backend_path_equivalence_witness :
    hash lenForge svcLenEdge (Sum.inr []) "sha256" = hash lenForge svcLenStd (Sum.inr []) "sha256" ∧
    hmac lenForge svcLenEdge [] [] "sha256" = hmac lenForge svcLenStd [] [] "sha256" := by
  have h := c7_backend_path_equivalence lenForge svcLenEdge svcLenStd
    hashPrim0 hmacPrim0 kdfPrim0 backendAgreement0 rfl rfl
    (Sum.inr []) (Sum.inr []) (Sum.inr []) [] [] "sha256" (Or.inr (Or.inl rfl)) 1
  exact ⟨h.1, h.2.1⟩

/-- Inverse-cipher contracts for AES-CBC over an abstract
encryption/decryption pair: decryption undoes encryption for valid key and IV
sizes, the native backend imports transparently and realizes the pair, and
the software decipher realizes decryption over byte strings with a successful
finish flag. -/
structure AesCbcInverse (fg : Forge) (s : SubtleCrypto)
    (enc : Buffer → Buffer → Buffer → Buffer)
    (dec : Buffer → Buffer → Buffer → Option Buffer) : Prop where
  encDecId : ∀ key iv p, (key.length = 16 ∨ key.length = 24 ∨ key.length = 32) →
    iv.length = 16 → dec key iv (enc key iv p) = some p
  impNat : ∀ fmt kd a e u, s.importKey fmt kd a e u = Except.ok ⟨fmt, kd, a, e, u⟩
  encNat : ∀ hk iv d, s.encrypt (WCAlgorithm.withIv "AES-CBC" iv) hk d =
    Except.ok (enc hk.keyData iv d)
  decNat : ∀ hk iv c p, dec hk.keyData iv c = some p →
    s.decrypt (WCAlgorithm.withIv "AES-CBC" iv) hk c = Except.ok p
  decSoft : ∀ key iv c p, dec key iv c = some p →
    fg.aesDecrypt (Utils.fromBufferToByteString key) (Utils.fromBufferToByteString iv)
      (Utils.fromBufferToByteString c) = (true, Utils.fromBufferToByteString p)

/-- C6: under the inverse-cipher contracts, `aesEncrypt` resolves with the
abstract ciphertext and both decryption paths — native `aesDecryptLarge` and
software `aesDecryptSmall` — invert it back to the original plaintext for
every plaintext, 16-byte IV and valid AES key. -/
theorem c6_aes_roundtrip (fg : Forge) (svc : WebCryptoFunctionService)
    (enc : Buffer → Buffer → Buffer → Buffer)
    (dec : Buffer → Buffer → Buffer → Option Buffer)
    (h : AesCbcInverse fg svc.subtle enc dec)
    (p iv key : Buffer)
    (hkey : key.length = 16 ∨ key.length = 24 ∨ key.length = 32) (hiv : iv.length = 16) :
    aesEncrypt svc p iv key = Except.ok (enc key iv p) ∧
    aesDecryptLarge svc (enc key iv p) iv key = Except.ok p ∧
    aesDecryptSmall fg svc (enc key iv p) iv key = Except.ok p := by
  have hdec := h.encDecId key iv p hkey hiv
  refine ⟨?_, ?_, ?_⟩
  · simp [aesEncrypt, h.impNat, h.encNat]
  · have hd := h.decNat ⟨"raw", key, WCAlgorithm.simple "AES-CBC", false, ["decrypt"]⟩ iv
      (enc key iv p) p hdec
    simp [aesDecryptLarge, h.impNat, hd]
  · rw [aesDecryptSmall]
    simp only [toByteString]
    rw [h.decSoft key iv (enc key iv p) p hdec]
    simp [fromByteString_fromBuffer]

/-- The identity cipher pair realized by the probe backends. -/
def enc0 : Buffer → Buffer → Buffer → Buffer := fun _ _ p => p

/-- The matching decryption of the identity cipher: always succeeds. -/
def dec0 : Buffer → Buffer → Buffer → Option Buffer := fun _ _ c => some c

/-- The probe backends realize the identity cipher pair. -/
theorem aesInverse0 : AesCbcInverse lenForge lenSubtle enc0 dec0 := by
  constructor
  · intro key iv p _ _; rfl
  · intro fmt kd a e u; rfl
  · intro hk iv d; rfl
  · intro hk iv c p hp
    injection hp with hp
    subst hp; rfl
  · intro key iv c p hp
    injection hp with hp
    subst hp; rfl

/-- A 16-byte zero buffer, a valid AES-128 key and CBC IV. -/
def key16 : Buffer := List.replicate 16 (byteOfNat 0)

/-- Witness for C6 at concrete inputs: the one-byte plaintext survives the
encrypt-then-decrypt round trip on both decryption paths. -/
theorem c6_aes_roundtrip_witness :
    aesEncrypt svcLenStd [byteOfNat 1] key16 key16 = Except.ok [byteOfNat 1] ∧
    aesDecryptLarge svcLenStd [byteOfNat 1] key16 key16 = Except.ok [byteOfNat 1] ∧
    aesDecryptSmall lenForge svcLenStd [byteOfNat 1] key16 key16 = Except.ok [byteOfNat 1] := by
  have h := c6_aes_roundtrip lenForge svcLenStd enc0 dec0 aesInverse0
    [byteOfNat 1] key16 key16 (Or.inl (by simp [key16])) (by simp [key16])
  exact ⟨h.1, h.2.1, h.2.2⟩
